import Mathlib

/-!
Verification of the per-participant audio capture pipeline of the
`meetbotlocal` repository.

The development embeds the audio-processing, storage and attribution
functions of the source (the browser hook scripts and the Node recorder
variants) as executable Lean definitions and proves the specified
properties about them.

Numeric model: the JavaScript code performs all arithmetic on IEEE-754
doubles over values that are exact binary rationals of small precision
(16-bit integer samples, 24-bit float32 samples, scaling by 32767/32768);
every multiplication, clamp and comparison appearing below is exact in
double precision for those inputs, so samples are modelled as `ℚ` with
exact arithmetic, and JavaScript `ToInt16`-style conversion is modelled
as truncation toward zero.
-/

/-- Truncation toward zero of a rational, as JavaScript applies to a
number stored into an `Int16Array` or written with `DataView.setInt16`
(the `ToInt16` abstract operation truncates toward zero; the wrap
modulo 2^16 is applied separately by `toInt16Wrap`). -/
def jsTrunc (q : ℚ) : ℤ := if q < 0 then ⌈q⌉ else ⌊q⌋

/-- Wrap of an integer into the signed 16-bit range, the final step of
JavaScript `ToInt16`. -/
def toInt16Wrap (n : ℤ) : ℤ := (n + 32768) % 65536 - 32768

/-- Embedding of `convertFloat32ToInt16` (src/unnamed/part_001, lines
142-150) and of the per-sample body of `f32ToI16`
(src/draft/webrtc-hook.js, lines 35-43) and `f32ToI16LEBytes`
(src/unnamed/part_001, lines 978-986), which perform the same
computation sample-wise:
`const s = Math.max(-1, Math.min(1, x)); s < 0 ? s * 0x8000 : s * 0x7FFF`
followed by storage into a signed 16-bit slot. -/
def f32ToI16 (x : ℚ) : ℤ :=
  let s := max (-1) (min 1 x)
  toInt16Wrap (if s < 0 then jsTrunc (s * 32768) else jsTrunc (s * 32767))

/-- Embedding of `convertFloat32ToInt16` on a whole frame: the source
maps the scalar conversion over every sample of the input array. -/
def convertFloat32ToInt16 (float32Array : List ℚ) : List ℤ :=
  float32Array.map f32ToI16

/-- Reference decoder for the 16-bit conversion, matching the symmetric
scaling of the encoder (negative values were scaled by 32768,
non-negative by 32767); used to state the reversibility property. -/
def decodeI16 (i : ℤ) : ℚ := if i < 0 then (i : ℚ) / 32768 else (i : ℚ) / 32767

/-- Embedding of `calculateMaxAmplitude` (src/unnamed/part_001, lines
152-161): peak absolute value of a float frame, starting from 0. -/
def calculateMaxAmplitude (float32Array : List ℚ) : ℚ :=
  float32Array.foldl (fun m x => max m |x|) 0

/-- Embedding of `convertToMono` (src/unnamed/part_001, lines 163-178):
one channel is returned unchanged; otherwise each output position is
the arithmetic mean of the `numberOfChannels` interleaved samples at
that position, over `length / numberOfChannels` output positions. -/
def convertToMono (audioData : List ℚ) (numberOfChannels : ℕ) : List ℚ :=
  if numberOfChannels = 1 then audioData
  else
    (List.range (audioData.length / numberOfChannels)).map fun i =>
      (((List.range numberOfChannels).map
          fun ch => audioData.getD (i * numberOfChannels + ch) 0).sum)
        / numberOfChannels

/-- Arithmetic mean of the `n` interleaved channel samples at output
position `i` of a frame; the claimed value of each down-mixed sample. -/
def channelMean (audioData : List ℚ) (n i : ℕ) : ℚ :=
  (((List.range n).map fun ch => audioData.getD (i * n + ch) 0).sum) / n

theorem jsTrunc_nonneg_eq_floor {q : ℚ} (h : 0 ≤ q) : jsTrunc q = ⌊q⌋ := by
  rw [jsTrunc, if_neg (not_lt.2 h)]

theorem toInt16Wrap_of_range {n : ℤ} (h1 : -32768 ≤ n) (h2 : n ≤ 32767) :
    toInt16Wrap n = n := by
  rw [toInt16Wrap, Int.emod_eq_of_lt (by omega) (by omega)]
  omega

theorem clamp_mem_Icc (x : ℚ) :
    -1 ≤ max (-1) (min 1 x) ∧ max (-1) (min 1 x) ≤ 1 :=
  ⟨le_max_left _ _, max_le (by norm_num) (min_le_left _ _)⟩

theorem clamp_of_mem {x : ℚ} (h1 : -1 ≤ x) (h2 : x ≤ 1) :
    max (-1) (min 1 x) = x := by
  rw [min_eq_right h2, max_eq_right h1]

theorem f32ToI16_of_mem {s : ℚ} (h1 : -1 ≤ s) (h2 : s ≤ 1) :
    f32ToI16 s = if s < 0 then ⌈s * 32768⌉ else ⌊s * 32767⌋ := by
  rw [f32ToI16]
  simp only [clamp_of_mem h1 h2]
  by_cases hs : s < 0
  · rw [if_pos hs, if_pos hs, jsTrunc,
      if_pos (mul_neg_of_neg_of_pos hs (by norm_num))]
    refine toInt16Wrap_of_range ?_ ?_
    · have h : (-32769 : ℤ) < ⌈s * 32768⌉ :=
        Int.lt_ceil.2 (by push_cast; nlinarith)
      omega
    · have h : ⌈s * 32768⌉ ≤ 32767 := Int.ceil_le.2 (by push_cast; nlinarith)
      omega
  · rw [if_neg hs, if_neg hs, jsTrunc,
      if_neg (not_lt.2 (mul_nonneg (not_lt.1 hs) (by norm_num)))]
    have hs0 : 0 ≤ s := not_lt.1 hs
    refine toInt16Wrap_of_range ?_ ?_
    · have h : (0 : ℤ) ≤ ⌊s * 32767⌋ := Int.le_floor.2 (by push_cast; nlinarith)
      omega
    · have h : ⌊s * 32767⌋ < 32768 := Int.floor_lt.2 (by push_cast; nlinarith)
      omega

/-- C3: for every float32 sample, the 16-bit conversion first clips to
[-1, 1] and then scales negative values by 32768 and non-negative
values by 32767 (truncated toward zero); an input of exactly -1.0
yields -32768 and an input of exactly 1.0 yields 32767; and on [-1, 1]
the conversion is reversible within the expected quantization error
(strictly less than one encoding step, 1/32767). -/
theorem c3_f32_to_i16_conversion :
    (∀ x : ℚ, f32ToI16 (max (-1) (min 1 x)) = f32ToI16 x) ∧
    f32ToI16 (-1) = -32768 ∧
    f32ToI16 1 = 32767 ∧
    (∀ s : ℚ, -1 ≤ s → s ≤ 1 →
      (s < 0 → f32ToI16 s = ⌈s * 32768⌉) ∧
      (0 ≤ s → f32ToI16 s = ⌊s * 32767⌋) ∧
      |decodeI16 (f32ToI16 s) - s| < 1 / 32767) := by
  refine ⟨?_, by with_unfolding_all decide, by with_unfolding_all decide, ?_⟩
  · intro x
    rw [f32ToI16, f32ToI16,
      clamp_of_mem (clamp_mem_Icc x).1 (clamp_mem_Icc x).2]
  · intro s h1 h2
    rw [f32ToI16_of_mem h1 h2]
    refine ⟨fun hs => if_pos hs, fun hs => if_neg (not_lt.2 hs), ?_⟩
    by_cases hs : s < 0
    · rw [if_pos hs]
      have hle : (s * 32768 : ℚ) ≤ ⌈s * 32768⌉ := Int.le_ceil _
      have hlt : (⌈s * 32768⌉ : ℚ) < s * 32768 + 1 := Int.ceil_lt_add_one _
      by_cases hneg : ⌈s * 32768⌉ < 0
      · rw [decodeI16, if_pos (by exact_mod_cast hneg)]
        rw [abs_sub_lt_iff]
        constructor <;> nlinarith
      · have hle0 : ⌈s * 32768⌉ ≤ 0 :=
          Int.ceil_le.2 (by push_cast; nlinarith)
        have heq : ⌈s * 32768⌉ = 0 := le_antisymm hle0 (not_lt.1 hneg)
        rw [decodeI16, heq]
        rw [if_neg (by norm_num)]
        have hgt : (-1 : ℚ) < s * 32768 := by
          by_contra hc
          have : ⌈s * 32768⌉ ≤ -1 := Int.ceil_le.2 (by push_cast; linarith)
          omega
        rw [abs_sub_lt_iff]
        constructor <;> [skip; skip] <;> push_cast <;> nlinarith
    · rw [if_neg hs]
      have hs0 : 0 ≤ s := not_lt.1 hs
      have hfl : (⌊s * 32767⌋ : ℚ) ≤ s * 32767 := Int.floor_le _
      have hfl2 : s * 32767 - 1 < (⌊s * 32767⌋ : ℚ) := Int.sub_one_lt_floor _
      have hi0 : (0 : ℤ) ≤ ⌊s * 32767⌋ := Int.le_floor.2 (by push_cast; nlinarith)
      rw [decodeI16, if_neg (not_lt.2 (by exact_mod_cast hi0))]
      rw [abs_sub_lt_iff]
      constructor <;> nlinarith

/-- Witness for C3 at the concrete sample 1/2: the hypotheses
-1 ≤ 1/2 ≤ 1 hold and the reversibility bound follows by applying the
theorem at that sample. -/
theorem c3_f32_to_i16_conversion_witness :
    ((-1 : ℚ) ≤ 1 / 2 ∧ (1 / 2 : ℚ) ≤ 1) ∧
    |decodeI16 (f32ToI16 (1 / 2)) - 1 / 2| < 1 / 32767 :=
  ⟨⟨by with_unfolding_all decide, by with_unfolding_all decide⟩,
    (c3_f32_to_i16_conversion.2.2.2 (1 / 2)
      (by with_unfolding_all decide) (by with_unfolding_all decide)).2.2⟩

theorem convertToMono_eq (audioData : List ℚ) {n : ℕ} (hn : 1 ≤ n) :
    convertToMono audioData n
      = (List.range (audioData.length / n)).map (channelMean audioData n) := by
  rcases eq_or_lt_of_le hn with h1 | h2
  · subst h1
    rw [convertToMono, if_pos rfl]
    apply List.ext_getElem
    · simp
    · intro i hi hi2
      simp only [List.getElem_map, List.getElem_range, channelMean]
      rw [show List.range 1 = [0] from rfl]
      simp only [List.map_cons, List.map_nil, List.sum_cons, List.sum_nil,
        mul_one, add_zero, Nat.cast_one, div_one]
      rw [List.getD_eq_getElem audioData 0 (by simpa using hi)]
  · rw [convertToMono, if_neg (by omega)]
    rfl

/-- C9: for every channel count ≥ 1, the down-mix produces one sample
per group of `n` interleaved input samples, each equal to the
arithmetic mean of the `n` per-channel samples at that position; and
when all `n` channels carry the same signal the mono output equals
that signal exactly. -/
theorem c9_convert_to_mono_mean (n : ℕ) (audioData : List ℚ) (hn : 1 ≤ n) :
    ((convertToMono audioData n).length = audioData.length / n ∧
      ∀ i < audioData.length / n,
        (convertToMono audioData n).getD i 0 = channelMean audioData n i) ∧
    ∀ sig : List ℚ, audioData.length = sig.length * n →
      (∀ i < sig.length, ∀ ch < n,
        audioData.getD (i * n + ch) 0 = sig.getD i 0) →
      convertToMono audioData n = sig := by
  rw [convertToMono_eq audioData hn]
  refine ⟨⟨by simp, ?_⟩, ?_⟩
  · intro i hi
    rw [List.getD_eq_getElem _ 0 (by simpa using hi)]
    simp
  · intro sig hlen hsame
    have hdiv : audioData.length / n = sig.length := by
      rw [hlen, Nat.mul_div_cancel _ (by omega)]
    rw [hdiv]
    apply List.ext_getElem
    · simp
    · intro i hi hi2
      simp only [List.getElem_map, List.getElem_range]
      have hsig : sig.getD i 0 = sig[i] :=
        List.getD_eq_getElem sig 0 hi2
      have hrep : (List.range n).map (fun ch => audioData.getD (i * n + ch) 0)
          = List.replicate n (sig.getD i 0) := by
        refine List.eq_replicate_iff.2 ⟨by simp, ?_⟩
        intro b hb
        simp only [List.mem_map, List.mem_range] at hb
        obtain ⟨ch, hch, rfl⟩ := hb
        exact hsame i (by simpa using hi) ch hch
      rw [channelMean, hrep, List.sum_replicate, nsmul_eq_mul, hsig,
        mul_div_cancel_left₀ _ (by positivity)]

/-- Witness for C9 with two channels carrying the same two-sample
signal: the hypotheses hold for the concrete frame and the down-mix
reproduces the signal exactly. -/
theorem c9_convert_to_mono_mean_witness :
    convertToMono [1 / 2, 1 / 2, -1 / 4, -1 / 4] 2 = [1 / 2, -1 / 4] :=
  (c9_convert_to_mono_mean 2 [1 / 2, 1 / 2, -1 / 4, -1 / 4]
      (by decide)).2 [1 / 2, -1 / 4]
    (by with_unfolding_all decide) (by with_unfolding_all decide)

/-- Silence threshold used by the capture pipeline
(src/unnamed/part_001, line 10: `SILENCE_THRESHOLD = 0.0001`). -/
def SILENCE_THRESHOLD : ℚ := 1 / 10000

/-- Peak normalized amplitude of a 16-bit chunk: the writer iterates
`Math.abs(audioData[i]) / 32768.0` keeping the running maximum,
starting from 0 (src/unnamed/part_001, lines 772-780). -/
def chunkMaxAmplitude (audioData : List ℤ) : ℚ :=
  audioData.foldl (fun m s => max m (|(s : ℚ)| / 32768)) 0

/-- Silence classification of one chunk
(src/unnamed/part_001, line 783: `maxAmplitude < SILENCE_THRESHOLD`). -/
def chunkIsSilent (audioData : List ℤ) : Bool :=
  decide (chunkMaxAmplitude audioData < SILENCE_THRESHOLD)

/-- Per-stream silence counters kept in `streamInfo.silenceStats`
(src/unnamed/part_001, lines 786-793). -/
structure SilenceStats where
  totalChunks : ℕ
  silentChunks : ℕ
  consecutiveSilence : ℕ
deriving DecidableEq

/-- Embedding of the silence bookkeeping and write decision of
`sendParticipantAudioChunk` (src/unnamed/part_001, lines 771-852):
counters are updated first (a non-silent chunk resets
`consecutiveSilence` to 0), then the chunk is skipped exactly when it
is silent and the updated consecutive-silence count exceeds 30.  The
returned boolean is `true` when the chunk is written to the raw
artifact. -/
def sendChunkStep (st : SilenceStats) (audioData : List ℤ) :
    SilenceStats × Bool :=
  let isSilent := chunkIsSilent audioData
  let stats : SilenceStats :=
    { totalChunks := st.totalChunks + 1
      silentChunks := if isSilent then st.silentChunks + 1 else st.silentChunks
      consecutiveSilence :=
        if isSilent then st.consecutiveSilence + 1 else 0 }
  let skipSilence := isSilent && decide (stats.consecutiveSilence > 30)
  (stats, !skipSilence)

/-- Folding `sendChunkStep` over a sequence of chunks for one stream,
returning the final counters and the per-chunk written flags. -/
def processChunks (st : SilenceStats) : List (List ℤ) → SilenceStats × List Bool
  | [] => (st, [])
  | c :: cs =>
    let r := sendChunkStep st c
    let rest := processChunks r.1 cs
    (rest.1, r.2 :: rest.2)

/-- C4: a silent chunk (peak normalized amplitude below 0.0001) is
written exactly when it is preceded by fewer than 30 consecutive
silent chunks — equivalently, it is suppressed exactly when the silent
run including it exceeds 30 chunks; a non-silent chunk is always
written and resets the consecutive-silence counter to zero; and in the
concrete scenario of 40 silent chunks followed by one non-silent
chunk, chunks 1-30 are written, chunks 31-40 are suppressed, the
non-silent chunk is written, and the counter ends at zero. -/
theorem c4_silence_suppression :
    (∀ (st : SilenceStats) (chunk : List ℤ), chunkIsSilent chunk = true →
      ((sendChunkStep st chunk).2 = true ↔ st.consecutiveSilence < 30) ∧
      (sendChunkStep st chunk).1.consecutiveSilence
        = st.consecutiveSilence + 1) ∧
    (∀ (st : SilenceStats) (chunk : List ℤ), chunkIsSilent chunk = false →
      (sendChunkStep st chunk).2 = true ∧
      (sendChunkStep st chunk).1.consecutiveSilence = 0) ∧
    (processChunks ⟨0, 0, 0⟩ (List.replicate 40 [0] ++ [[1000]])).2
      = List.replicate 30 true ++ List.replicate 10 false ++ [true] ∧
    (processChunks ⟨0, 0, 0⟩
        (List.replicate 40 [0] ++ [[1000]])).1.consecutiveSilence = 0 := by
  refine ⟨?_, ?_, by with_unfolding_all decide, by with_unfolding_all decide⟩
  · intro st chunk h
    simp only [sendChunkStep, h, if_true, Bool.true_and, Bool.not_eq_true',
      decide_eq_false_iff_not, gt_iff_lt, not_lt, decide_eq_true_eq]
    exact ⟨by omega, trivial⟩
  · intro st chunk h
    simp [sendChunkStep, h]

/-- Witness for C4: a silent chunk arriving with a zero
consecutive-silence counter is written, by the theorem applied at the
concrete state and chunk. -/
theorem c4_silence_suppression_witness :
    chunkIsSilent [0] = true ∧
    (sendChunkStep ⟨0, 0, 0⟩ [0]).2 = true :=
  ⟨by with_unfolding_all decide,
    ((c4_silence_suppression.1 ⟨0, 0, 0⟩ [0]
      (by with_unfolding_all decide)).1).mpr (by decide)⟩

/-- Two bytes of an unsigned 16-bit little-endian field, as written by
`Buffer.writeUInt16LE`. -/
def u16le (n : ℕ) : List ℕ := [n % 256, n / 256 % 256]

/-- Four bytes of an unsigned 32-bit little-endian field, as written by
`Buffer.writeUInt32LE`. -/
def u32le (n : ℕ) : List ℕ :=
  [n % 256, n / 256 % 256, n / 65536 % 256, n / 16777216 % 256]

/-- Largest value accepted by `Buffer.writeUInt32LE`; Node throws
`ERR_OUT_OF_RANGE` for anything above it. -/
def U32MAX : ℕ := 4294967295

/-- Embedding of `writeWavHeader` (src/unnamed/part_002, lines 57-75;
identical copies at src/unnamed/part_001 lines 180-199 and
src/unnamed/part_003 lines 23-42): the 44-byte canonical PCM header —
"RIFF", chunk size `36 + dataLength`, "WAVE", "fmt ", fmt-chunk size
16, PCM format 1, 1 channel, the sample rate, the byte rate
`sampleRate * 2`, block align 2, 16 bits per sample, "data", and the
payload length.  `Buffer.writeUInt32LE` in Node throws
`ERR_OUT_OF_RANGE` when a field value exceeds `U32MAX`, so the header
write is modelled as fallible. -/
def writeWavHeader (dataLength : ℕ) (sampleRate : ℕ) :
    Except String (List ℕ) :=
  let blockAlign := 2
  let byteRate := sampleRate * blockAlign
  if 36 + dataLength > U32MAX ∨ sampleRate > U32MAX ∨ byteRate > U32MAX then
    .error "ERR_OUT_OF_RANGE"
  else
    .ok ([82, 73, 70, 70] ++ u32le (36 + dataLength) ++
      [87, 65, 86, 69] ++ [102, 109, 116, 32] ++ u32le 16 ++
      u16le 1 ++ u16le 1 ++ u32le sampleRate ++ u32le byteRate ++
      u16le blockAlign ++ u16le 16 ++ [100, 97, 116, 97] ++
      u32le dataLength)

/-- Embedding of `finalizeRawToWav` (src/unnamed/part_002, lines
78-92): the payload length is the raw file size, the header is written
first, and the raw payload is then stream-copied unchanged after it. -/
def finalizeRawToWav (raw : List ℕ) (sampleRate : ℕ) :
    Except String (List ℕ) :=
  (writeWavHeader raw.length sampleRate).map (fun header => header ++ raw)

/-- C2 counterexample: the claim quantifies over every sample rate, but
finalizing a two-byte artifact at sample rate 2^32 makes the header
write throw `ERR_OUT_OF_RANGE` (the rate does not fit the 32-bit
header field), so no container of S + 44 bytes is produced. -/
theorem c2_counterexample_rate_overflow :
    finalizeRawToWav [0, 0] 4294967296 = .error "ERR_OUT_OF_RANGE" ∧
    ∀ out : List ℕ, finalizeRawToWav [0, 0] 4294967296 ≠ .ok out := by
  refine ⟨rfl, ?_⟩
  intro out h
  rw [show finalizeRawToWav [0, 0] 4294967296
      = Except.error "ERR_OUT_OF_RANGE" from rfl] at h
  exact Except.noConfusion h

/-- C2 (amended): for every raw artifact of size S > 0 and every sample
rate whose header fields fit in 32 bits (`36 + S ≤ U32MAX` and
`2 * sampleRate ≤ U32MAX`), finalization produces a container of
exactly S + 44 bytes whose bytes 4-7 encode 36 + S little-endian,
whose bytes 40-43 encode S, and whose bytes 44 onward are
byte-for-byte the raw artifact. -/
theorem c2_finalize_layout (raw : List ℕ) (sampleRate : ℕ)
    (_hpos : 0 < raw.length) (hS : 36 + raw.length ≤ U32MAX)
    (hr : sampleRate * 2 ≤ U32MAX) :
    ∃ out : List ℕ, finalizeRawToWav raw sampleRate = .ok out ∧
      out.length = raw.length + 44 ∧
      (out.drop 4).take 4 = u32le (36 + raw.length) ∧
      (out.drop 40).take 4 = u32le raw.length ∧
      out.drop 44 = raw := by
  have hne : ¬(36 + raw.length > U32MAX ∨ sampleRate > U32MAX ∨
      sampleRate * 2 > U32MAX) := by
    push_neg
    refine ⟨hS, ?_, hr⟩
    calc sampleRate ≤ sampleRate * 2 := by omega
      _ ≤ U32MAX := hr
  rw [finalizeRawToWav, writeWavHeader, if_neg hne]
  refine ⟨_, rfl, ?_, ?_, ?_, ?_⟩
  all_goals
    simp only [u32le, u16le, List.append_assoc, List.cons_append,
      List.nil_append, List.length_cons, List.length_append]
  all_goals rfl

/-- Witness for C2 (amended) at a two-byte artifact and 16000 Hz,
applying the layout theorem with its hypotheses discharged by
computation. -/
theorem c2_finalize_layout_witness :
    ∃ out : List ℕ, finalizeRawToWav [1, 2] 16000 = .ok out ∧
      out.length = ([1, 2] : List ℕ).length + 44 ∧
      (out.drop 4).take 4 = u32le (36 + ([1, 2] : List ℕ).length) ∧
      (out.drop 40).take 4 = u32le ([1, 2] : List ℕ).length ∧
      out.drop 44 = [1, 2] :=
  c2_finalize_layout [1, 2] 16000 (by decide) (by decide) (by decide)

/-- Entry of the `writers` map (src/unnamed/part_002, lines 94-103):
the accumulated raw artifact bytes (the source keeps an `fd` plus a
byte counter; the byte counter equals the length of `raw`) and the
`sample_rate` field of the metadata object passed to `openWriter`. -/
structure WriterEntry where
  raw : List ℕ
  metaSampleRate : Option ℕ

/-- Per-track record kept by `RecordingSession.tracks`
(src/unnamed/part_002, lines 148-169); only the lazily back-filled
fields matter for the properties below. -/
structure TrackRec where
  sample_rate : Option ℕ
  channels : Option ℕ

/-- Combined recorder state: the module-level `writers` map, the
successfully finalized containers on disk keyed by track, and the
session's `tracks` metadata table.  (`wavs` records only completed
finalizations: when `finalizeRawToWav` throws, `closeWriter` rethrows
before recording anything, see `closeWriter`.) -/
structure RecState where
  writers : List (String × WriterEntry)
  wavs : List (String × List ℕ)
  tracks : List (String × TrackRec)

/-- Lookup in an association list modelling a JavaScript `Map`. -/
def lookupKey {α β : Type} [DecidableEq α] (k : α) : List (α × β) → Option β
  | [] => none
  | (a, b) :: es => if a = k then some b else lookupKey k es

/-- Removal of a key from an association list (`Map.delete`). -/
def removeKey {α β : Type} [DecidableEq α] (k : α) :
    List (α × β) → List (α × β)
  | [] => []
  | (a, b) :: es => if a = k then removeKey k es else (a, b) :: removeKey k es

/-- `Map.set` on an association list: the key is bound to the new
value and any previous binding removed. -/
def setKey {α β : Type} [DecidableEq α] (k : α) (v : β) (l : List (α × β)) :
    List (α × β) :=
  (k, v) :: removeKey k l

/-- JavaScript `||` fallback on an optional numeric field:
`undefined` and `0` both select the default. -/
def jsOrNat (o : Option ℕ) (d : ℕ) : ℕ :=
  match o with
  | some v => if v = 0 then d else v
  | none => d

/-- Embedding of `openWriter` (src/unnamed/part_002, lines 95-104): a
fresh empty raw artifact is allocated under the key and the passed
metadata is remembered.  (The local `sampleRate`/`channels` variables
computed there are never stored — they are dead in the source.) -/
def openWriter (key : String) (metaSampleRate : Option ℕ) (s : RecState) :
    RecState :=
  { s with writers := setKey key ⟨[], metaSampleRate⟩ s.writers }

/-- Embedding of `writeChunk` (src/unnamed/part_002, lines 105-108):
an unknown key returns immediately; a known key appends the bytes to
its raw artifact.  The second component is the list of log lines
emitted by the call; the source `writeChunk` contains no logging
statement on either path. -/
def writeChunk (key : String) (bytes : List ℕ) (s : RecState) :
    RecState × List String :=
  match lookupKey key s.writers with
  | none => (s, [])
  | some w =>
    ({ s with
        writers := setKey key ⟨w.raw ++ bytes, w.metaSampleRate⟩ s.writers },
      [])

/-- Embedding of `closeWriter` (src/unnamed/part_002, lines 109-115):
an unknown key returns immediately (`.ok` with the state unchanged);
otherwise the raw artifact is finalized at
`w.meta?.sample_rate || rate` and only then — after `finalizeRawToWav`
returns normally — does `writers.delete(key)` run.  When finalization
throws, the exception propagates out of `closeWriter` (`.error`) and
the key stays in the writers map; in the source the entry's file
descriptor is then already closed and a truncated container file may
remain, so a subsequent `writeChunk` or `closeWriter` on that key
would itself throw — no property below applies either operation to a
state produced by a failed close. -/
def closeWriter (key : String) (rate : ℕ) (s : RecState) :
    Except String RecState :=
  match lookupKey key s.writers with
  | none => .ok s
  | some w =>
    match finalizeRawToWav w.raw (jsOrNat w.metaSampleRate rate) with
    | .error e => .error e
    | .ok wav =>
      .ok { s with
        writers := removeKey key s.writers
        wavs := setKey key wav s.wavs }

/-- Embedding of `RecordingSession.onTrackOpen` (src/unnamed/part_002,
lines 148-160), restricted to the track table: a new record is
registered with no sample rate or channel count yet. -/
def onTrackOpen (key : String) (s : RecState) : RecState :=
  { s with tracks := setKey key ⟨none, none⟩ s.tracks }

/-- Embedding of `RecordingSession.onTrackMeta` (src/unnamed/part_002,
lines 162-169): a no-op for an unknown key, otherwise the truthy
fields back-fill the session track record (and only that record — the
`writers` map is untouched, as in the source). -/
def onTrackMeta (key : String) (sample_rate channels : ℕ) (s : RecState) :
    RecState :=
  match lookupKey key s.tracks with
  | none => s
  | some t =>
    { s with
      tracks := setKey key
        ⟨if sample_rate ≠ 0 then some sample_rate else t.sample_rate,
          if channels ≠ 0 then some channels else t.channels⟩ s.tracks }

theorem lookupKey_removeKey {α β : Type} [DecidableEq α] (k : α)
    (l : List (α × β)) :
    lookupKey k (removeKey k l) = none := by
  induction l with
  | nil => rfl
  | cons e es ih =>
    obtain ⟨a, b⟩ := e
    rw [removeKey]
    by_cases h : a = k
    · rw [if_pos h]
      exact ih
    · rw [if_neg h, lookupKey, if_neg h]
      exact ih


/-- C10: once `closeWriter key` has completed normally, the writers
table no longer contains the key, a subsequent `writeChunk` for it is
a no-op that writes nothing, and a subsequent `closeWriter` for it
completes and returns the state unchanged — so a track's raw artifact
is finalized at most once even when both the end-of-stream handler
and the end-of-run cleanup loop call `closeWriter` for the same key.
(When finalization throws, `closeWriter` does not complete: it
rethrows before `writers.delete(key)` runs and the key remains, see
`closeWriter`.) -/
theorem c10_close_writer_once (s s1 : RecState) (key : String)
    (rate rate2 : ℕ) (bytes : List ℕ)
    (h : closeWriter key rate s = .ok s1) :
    lookupKey key s1.writers = none ∧
    writeChunk key bytes s1 = (s1, []) ∧
    closeWriter key rate2 s1 = .ok s1 := by
  have hnone : lookupKey key s1.writers = none := by
    rw [closeWriter] at h
    cases hl : lookupKey key s.writers with
    | none =>
      rw [hl] at h
      dsimp only at h
      injection h with h2
      subst h2
      exact hl
    | some w =>
      rw [hl] at h
      dsimp only at h
      cases hf : finalizeRawToWav w.raw (jsOrNat w.metaSampleRate rate) with
      | error e =>
        rw [hf] at h
        exact absurd h (by simp)
      | ok wav =>
        rw [hf] at h
        dsimp only at h
        injection h with h2
        subst h2
        exact lookupKey_removeKey key s.writers
  refine ⟨hnone, ?_, ?_⟩
  · rw [writeChunk, hnone]
  · rw [closeWriter, hnone]

/-- Witness for C10: closing the open writer "k" (two raw bytes,
default 16000 Hz) completes normally; by the theorem applied to that
completed close, the key is gone and the repeated
`writeChunk`/`closeWriter` calls for it are no-ops. -/
theorem c10_close_writer_once_witness :
    ∃ s1 : RecState,
      closeWriter "k" 16000 ⟨[("k", ⟨[1, 2], none⟩)], [], []⟩ = .ok s1 ∧
      lookupKey "k" s1.writers = none ∧
      writeChunk "k" [3] s1 = (s1, []) ∧
      closeWriter "k" 16000 s1 = .ok s1 :=
  ⟨_, rfl,
    c10_close_writer_once ⟨[("k", ⟨[1, 2], none⟩)], [], []⟩ _ "k"
      16000 16000 [3] rfl⟩

/-- C8 counterexample: a chunk arriving for a key with no open writer
is dropped without modifying any state, but contrary to the claim it
is not logged — `writeChunk` emits no log line at all on the
unknown-key path (the empty list is the complete log output). -/
theorem c8_counterexample_drop_not_logged :
    writeChunk "k" [1, 2] ⟨[], [], []⟩ = (⟨[], [], []⟩, []) := rfl

/-- C8 (amended): a chunk write for a track key that has no open
writer (never opened, or arriving after close) is a silent no-op — it
does not throw (the embedding is a total function), it modifies no
file, and nothing is logged (the source `writeChunk` has no logging
statement, so the drop is not logged). -/
theorem c8_unknown_key_silent_noop (s : RecState) (key : String)
    (bytes : List ℕ) (h : lookupKey key s.writers = none) :
    writeChunk key bytes s = (s, []) := by
  rw [writeChunk, h]

/-- Witness for C8 (amended): a late chunk for the never-opened key
"late" leaves the empty state untouched and logs nothing. -/
theorem c8_unknown_key_silent_noop_witness :
    writeChunk "late" [7] ⟨[], [], []⟩ = (⟨[], [], []⟩, []) :=
  c8_unknown_key_silent_noop ⟨[], [], []⟩ "late" [7] rfl

/-- Embedding of the per-participant finalization step of
`closeAudioFiles` (src/unnamed/part_001, lines 882-916): the raw
artifact is finalized (at 16000 Hz) only when its size is positive; an
empty artifact is skipped and its raw file deleted, yielding no
container (`none`). -/
def finalizeParticipantArtifact (raw : List ℕ) :
    Option (Except String (List ℕ)) :=
  if raw.length > 0 then some (finalizeRawToWav raw 16000) else none

/-- C6: `closeAudioFiles` (src/unnamed/part_001) indeed discards a
zero-byte artifact without producing a container, but `closeWriter`
(src/unnamed/part_002), which the claim also cites, has no size check:
closing a writer whose raw artifact is empty produces a 44-byte
container whose payload-length field declares 0 bytes, and the empty
raw artifact is not deleted.  This evaluates the code at the failing
input. -/
theorem c6_zero_byte_artifact_finalized :
    finalizeParticipantArtifact [] = none ∧
    ∃ s1 : RecState, ∃ header : List ℕ,
      closeWriter "k" 16000 ⟨[("k", ⟨[], none⟩)], [], []⟩ = .ok s1 ∧
      lookupKey "k" s1.wavs = some header ∧
      header.length = 44 ∧
      (header.drop 40).take 4 = u32le 0 :=
  ⟨rfl, _, _, rfl, rfl, rfl, rfl⟩

/-- C7: the discovered sample rate reported through the track-meta
bridge is recorded in the session's track table but never reaches the
writer's metadata, so finalization always encodes the fallback
16000 Hz in the container header (bytes 24-27), even for a track whose
discovered rate is 48000 Hz.  This evaluates the pipeline at the
failing input: open track "k", open its writer with the bridge payload
(which carries no sample rate), back-fill 48000 Hz via `onTrackMeta`,
write a chunk, close. -/
theorem c7_discovered_rate_not_used :
    (onTrackMeta "k" 48000 1
        (openWriter "k" none (onTrackOpen "k" ⟨[], [], []⟩))).tracks
      = [("k", ⟨some 48000, some 1⟩)] ∧
    ∃ s1 : RecState, ∃ out : List ℕ,
      closeWriter "k" 16000
        ((writeChunk "k" [1, 2]
          (onTrackMeta "k" 48000 1
            (openWriter "k" none (onTrackOpen "k" ⟨[], [], []⟩)))).1)
        = .ok s1 ∧
      lookupKey "k" s1.wavs = some out ∧
      (out.drop 24).take 4 = u32le 16000 ∧
      u32le 16000 ≠ u32le 48000 :=
  ⟨rfl, _, _, rfl, rfl, rfl, by decide⟩

/-- One observable state of the files touched by `writeJsonAtomic`:
the destination document content and the temporary file content when
one exists. -/
structure AtomicWriteView where
  dest : List ℕ
  tmp : Option (List ℕ)
deriving DecidableEq

/-- States of the destination and temporary file after each atomic
filesystem step of `writeJsonAtomic` (src/unnamed/part_002, lines
26-51).  The serialized document is first written to a fresh temporary
path (observable as a growing prefix of the new content while the
destination still holds the old document); then `fsp.rename` swaps the
temporary over the destination in one atomic step; exactly when the
rename fails with `EXDEV`, the fallback `fsp.copyFile` rewrites the
destination in place — truncation followed by sequential writes,
observable as prefixes of the new content — and the temporary file is
then unlinked. -/
def writeJsonAtomicTrace (old new : List ℕ) (exdev : Bool) :
    List AtomicWriteView :=
  [⟨old, none⟩] ++
  (List.range (new.length + 1)).map (fun k => ⟨old, some (new.take k)⟩) ++
  (if exdev then
    (List.range (new.length + 1)).map (fun k => ⟨new.take k, some new⟩) ++
      [⟨new, none⟩]
  else [⟨new, none⟩])

/-- C5 counterexample: on the `EXDEV` fallback path the copy is not
atomic — replacing the document [1, 2] by [3, 4] passes through an
observable state whose destination holds the partial document [3],
which is neither the old nor the new document.  (The claim's
"the destination path never holds a partially written document" is
therefore false for the cross-filesystem fallback.) -/
theorem c5_counterexample_exdev_partial :
    (⟨[3], some [3, 4]⟩ : AtomicWriteView)
      ∈ writeJsonAtomicTrace [1, 2] [3, 4] true ∧
    ([3] : List ℕ) ≠ [1, 2] ∧ ([3] : List ℕ) ≠ [3, 4] := by
  refine ⟨?_, by decide, by decide⟩
  decide

/-- C5 (amended): every metadata write serializes to a fresh temporary
path and atomically renames it over the destination, and if and only
if the rename fails with `EXDEV` it instead copies the temporary file
onto the destination and deletes the temporary; on the rename path the
destination is only ever observed holding the old or the new full
document (never a partial one), every state before the final rename
still holds the old document, and on both paths the procedure ends
with the destination holding the new document and no temporary file.
The `EXDEV` copy fallback, however, rewrites the destination in place
and is not atomic. -/
theorem c5_atomic_write_rename_path (old new : List ℕ) :
    (∀ v ∈ writeJsonAtomicTrace old new false,
      v.dest = old ∨ v.dest = new) ∧
    (∀ v ∈ (writeJsonAtomicTrace old new false).dropLast, v.dest = old) ∧
    (writeJsonAtomicTrace old new false).getLast? = some ⟨new, none⟩ ∧
    (writeJsonAtomicTrace old new true).getLast? = some ⟨new, none⟩ := by
  refine ⟨?_, ?_, ?_, ?_⟩
  · intro v hv
    simp only [writeJsonAtomicTrace, if_neg (Bool.false_ne_true),
      List.mem_append, List.mem_singleton, List.mem_map,
      List.mem_range] at hv
    rcases hv with (rfl | ⟨k, _, rfl⟩) | rfl
    · exact Or.inl rfl
    · exact Or.inl rfl
    · exact Or.inr rfl
  · intro v hv
    rw [writeJsonAtomicTrace, if_neg (Bool.false_ne_true),
      List.dropLast_concat] at hv
    simp only [List.mem_append, List.mem_singleton, List.mem_map,
      List.mem_range] at hv
    rcases hv with rfl | ⟨k, _, rfl⟩
    · rfl
    · rfl
  · rw [writeJsonAtomicTrace, if_neg (Bool.false_ne_true),
      List.getLast?_concat]
  · rw [writeJsonAtomicTrace, if_pos rfl, ← List.append_assoc,
      List.getLast?_concat]

/-- Witness for C5 (amended): on the rename path for the concrete
documents [1, 2] → [3, 4], the initial observable state (destination
still the old document) satisfies the old-or-new invariant, by the
theorem applied at that state. -/
theorem c5_atomic_write_rename_path_witness :
    (⟨[1, 2], none⟩ : AtomicWriteView).dest = [1, 2] ∨
    (⟨[1, 2], none⟩ : AtomicWriteView).dest = [3, 4] :=
  (c5_atomic_write_rename_path [1, 2] [3, 4]).1 ⟨[1, 2], none⟩ (by decide)

/-- A contributing-source telemetry entry (an
`RTCRtpContributingSource`): the source identifier and the reported
per-source audio level.  `none` models an absent field; JavaScript
additionally treats `0` as falsy, which the definitions below check
explicitly. -/
structure ContributingSource where
  source : Option ℕ
  audioLevel : Option ℚ

/-- A participant entry of `UserManager.users`
(src/unnamed/part_001, lines 1079-1107). -/
structure MeetUser where
  participantId : String
  displayName : String
deriving DecidableEq

/-- State read and written by the per-frame attribution code
(src/unnamed/part_001, lines 1504-1583): the participant directory
`UserManager.users` in insertion order, the stream-to-participant
association `UserManager.streamToParticipant`, and the receiver
manager's source-to-stream map.  (The per-user `streamIds` set also
updated by `associateStream` is not tracked; no claim reads it.) -/
structure ResolveEnv where
  users : List MeetUser
  streamToParticipant : List (String × String)
  sourceToStream : List (ℕ × String)
deriving DecidableEq

/-- Embedding of the loudest-source loop (src/unnamed/part_001, lines
1507-1521): starting from `loudestSource = null`, `maxLevel = 0`, each
source with a truthy `source` field and a truthy `audioLevel` strictly
above the running maximum becomes the new loudest. -/
def pickLoudest (sources : List ContributingSource) : Option ℕ × ℚ :=
  sources.foldl
    (fun acc src =>
      match src.source with
      | none => acc
      | some sid =>
        if sid ≠ 0 then
          match src.audioLevel with
          | some lv => if lv ≠ 0 ∧ acc.2 < lv then (some sid, lv) else acc
          | none => acc
        else acc)
    (none, 0)

/-- Embedding of the fallback at src/unnamed/part_001, lines
1523-1527: when the loop found no loudest source but the source list
is non-empty and its first entry has a truthy `source`, that first
source is used. -/
def loudestWithFallback (sources : List ContributingSource) : Option ℕ :=
  match (pickLoudest sources).1 with
  | some s => some s
  | none =>
    match sources.head? with
    | some s0 =>
      match s0.source with
      | some sid => if sid ≠ 0 then some sid else none
      | none => none
    | none => none

/-- Embedding of `UserManager.getParticipantByStreamId`
(src/unnamed/part_001, lines 1124-1130): the stream association gives
a participant id, which is then looked up in the directory; either
lookup may fail. -/
def getParticipantByStreamId (env : ResolveEnv) (sid : String) :
    Option MeetUser :=
  match lookupKey sid env.streamToParticipant with
  | none => none
  | some pid => env.users.find? (fun u => u.participantId == pid)

/-- Embedding of `UserManager.getFirstParticipant`
(src/unnamed/part_001, lines 1132-1145): the first user whose display
name is truthy and neither "You" nor "Unknown"; otherwise the first
user of the directory; otherwise nothing. -/
def getFirstParticipant (env : ResolveEnv) : Option MeetUser :=
  match env.users.find? (fun u =>
      u.displayName != "" && u.displayName != "You" &&
        u.displayName != "Unknown") with
  | some u => some u
  | none => env.users.head?

/-- Embedding of `UserManager.associateStream` (src/unnamed/part_001,
lines 1113-1122): a falsy stream id returns immediately, and the
association is recorded only when the participant exists in the
directory. -/
def associateStream (pid : String) (sid : Option String)
    (env : ResolveEnv) : ResolveEnv :=
  match sid with
  | none => env
  | some s =>
    if s = "" then env
    else if (env.users.find? (fun u => u.participantId == pid)).isSome then
      { env with streamToParticipant := setKey s pid env.streamToParticipant }
    else env

/-- Embedding of `UserManager.addUser` (src/unnamed/part_001, lines
1085-1107): a new entry is appended only when the id is absent, with
`displayName || 'Unknown'`. -/
def addUser (pid name : String) (env : ResolveEnv) : ResolveEnv :=
  if (env.users.find? (fun u => u.participantId == pid)).isSome then env
  else
    { env with
        users := env.users ++ [⟨pid, if name = "" then "Unknown" else name⟩] }

/-- Rule 1 of the per-frame attribution as written
(src/unnamed/part_001, lines 1534-1543): the loudest contributing
source (with the first-source fallback), its stream id from the
receiver manager's source-to-stream map, and that stream id in the
stream-to-participant association.  The call site invokes
`receiverManager.getStreamIdForSource`, a method the in-scope
`ReceiverManager` does not define (its source-to-stream lookup is
named `getStreamIdBySourceId`); that lookup is what is modelled here.
At runtime this code is unreachable anyway — line 1504 throws first,
see `transformNonSilentFrame`. -/
def resolveStep1 (env : ResolveEnv) (sources : List ContributingSource) :
    Option MeetUser :=
  match loudestWithFallback sources with
  | none => none
  | some ssrc =>
    match lookupKey ssrc env.sourceToStream with
    | none => none
    | some sid => if sid = "" then none else getParticipantByStreamId env sid

/-- Rule 2 of the per-frame attribution (src/unnamed/part_001, lines
1546-1555): the track's own stream id looked up directly in the
stream-to-participant association, when that id is truthy. -/
def resolveStep2 (env : ResolveEnv) (streamId : Option String) :
    Option MeetUser :=
  match streamId with
  | none => none
  | some sid => if sid = "" then none else getParticipantByStreamId env sid

/-- The per-frame attribution logic as written out in the audio
`transform` (src/unnamed/part_001, lines 1507-1583): rule 1
(contributing sources), else rule 2 (stream id, with the successful
association refreshed), else rule 3 (the directory's first
participant, tentatively associated), else rule 4 (a placeholder
identity `unknown_<trackId>` named "Unknown Speaker", registered in
the directory and associated), yielding the identity under which the
chunk would be sent via `sendParticipantAudioChunk` together with the
updated attribution state.  At runtime this logic is dead code: the
dispatch at line 1504 throws before it is reached, so the transform
drops the frame instead — `transformNonSilentFrame` models the actual
behavior and uses this definition only for the succeeded-dispatch
branch. -/
def resolveParticipant (env : ResolveEnv) (sources : List ContributingSource)
    (streamId : Option String) (trackId : String) :
    (String × String) × ResolveEnv :=
  match resolveStep1 env sources with
  | some u => ((u.participantId, u.displayName), env)
  | none =>
    match resolveStep2 env streamId with
    | some u =>
      ((u.participantId, u.displayName),
        associateStream u.participantId streamId env)
    | none =>
      match getFirstParticipant env with
      | some u =>
        ((u.participantId, u.displayName),
          associateStream u.participantId streamId env)
      | none =>
        (("unknown_" ++ trackId, "Unknown Speaker"),
          associateStream ("unknown_" ++ trackId) streamId
            (addUser ("unknown_" ++ trackId) "Unknown Speaker" env))

/-- Method names defined by the `ReceiverManager` class in scope at
the per-frame transform (src/unnamed/part_001, lines 1238-1282); the
instance the transform dispatches on is the `const receiverManager` of
line 1398, an instance of exactly this class. -/
def receiverManagerMethods : List String :=
  ["constructor", "addReceiver", "getReceiverId", "mapSourceToStream",
    "getStreamIdBySourceId", "getReceiverByStreamId"]

/-- Embedding of the transform body for a non-silent frame
(src/unnamed/part_001, lines 1457-1626) including its dynamic
dispatch: line 1504 calls `receiverManager.getContributingSources`;
when the receiver manager's class defines no such method, the call
throws `TypeError`, the `catch` at lines 1618-1621 logs the error and
closes the frame, and no chunk is sent (`none`).  Only if that
dispatch succeeded would the frame be attributed by the written-out
resolution logic (`resolveParticipant`) and sent under the chosen
identity (`some`). -/
def transformNonSilentFrame (env : ResolveEnv)
    (sources : List ContributingSource) (streamId : Option String)
    (trackId : String) : Option ((String × String) × ResolveEnv) :=
  if "getContributingSources" ∈ receiverManagerMethods then
    some (resolveParticipant env sources streamId trackId)
  else none

/-- C1: the claimed resolution order is written out at
src/unnamed/part_001 lines 1507-1583 (`resolveParticipant`) and
matches the spec's stated intent, but the transform never reaches it:
`receiverManager.getContributingSources` (line 1504) is not a method
of the in-scope `ReceiverManager` (lines 1238-1282), so every
non-silent frame throws `TypeError`, the catch at line 1618 closes the
frame, and the chunk is dropped — contradicting the claim that the
chunk is always written under the chosen identity and that no chunk is
dropped for lack of attribution.  The conjuncts evaluate the code: the
method is absent from the class, every non-silent frame is dropped,
and at a concrete failing input — one positive-energy source whose
stream is associated to Alice — the written-out logic would have
attributed the chunk to Alice, yet the transform drops it. -/
theorem c1_attribution_unreachable_chunks_dropped :
    "getContributingSources" ∉ receiverManagerMethods ∧
    (∀ (env : ResolveEnv) (sources : List ContributingSource)
        (streamId : Option String) (trackId : String),
      transformNonSilentFrame env sources streamId trackId = none) ∧
    transformNonSilentFrame
        ⟨[⟨"alice", "Alice"⟩], [("sA", "alice")], [(7, "sA")]⟩
        [⟨some 7, some (1 / 2)⟩] (some "sA") "t1" = none ∧
    (resolveParticipant
        ⟨[⟨"alice", "Alice"⟩], [("sA", "alice")], [(7, "sA")]⟩
        [⟨some 7, some (1 / 2)⟩] (some "sA") "t1").1
      = ("alice", "Alice") := by
  have habs : "getContributingSources" ∉ receiverManagerMethods := by decide
  refine ⟨habs, ?_, ?_, ?_⟩
  · intro env sources streamId trackId
    rw [transformNonSilentFrame, if_neg habs]
  · rw [transformNonSilentFrame, if_neg habs]
  · with_unfolding_all decide
